import Mathlib

/-!
Shallow embedding of `src/main.rs` of the `ss_to_tex` utility.

The program loads a TOML configuration, validates the API key, scans a
directory for the most recently modified image, asks the user for
confirmation, sends the image to a vision API, writes the returned text to
the clipboard and emits a desktop notification on every handled exit path.

External effects (config-file read, directory listing, per-entry metadata,
file read, dialog answer, HTTP exchange, clipboard) are supplied by a
`World` record; `runMain` replays `main` over such a world and produces the
process outcome (normal return or panic) together with the ordered trace of
observable events (notifications, dialog, file read, API call, clipboard
write).  String helpers (`lowerChar`, `trimString`, `splitOnChar`) model the
corresponding Rust `str` operations on the ASCII fragment the program uses.
-/

/-- Model of `serde_json::Value`. -/
inductive Json where
  | null : Json
  | bool : Bool → Json
  | num : Int → Json
  | str : String → Json
  | arr : List Json → Json
  | obj : List (String × Json) → Json

/-- Model of `serde_json` string indexing `value["key"]`: on an object it
returns the value of the key (or `Null` when absent), on anything else it
returns `Null`. -/
def Json.getKey : Json → String → Json
  | .obj fields, k =>
    match fields.find? (fun p => p.1 == k) with
    | some p => p.2
    | none => .null
  | _, _ => .null

/-- Model of `Value::as_array`. -/
def Json.asArray : Json → Option (List Json)
  | .arr xs => some xs
  | _ => none

/-- Model of `Value::as_str`. -/
def Json.asStr : Json → Option String
  | .str s => some s
  | _ => none

/-- ASCII lowering of one character, modelling what Rust's `to_lowercase`
does on the ASCII strings the program compares. -/
def lowerChar (c : Char) : Char :=
  if 65 ≤ c.toNat && c.toNat ≤ 90 then Char.ofNat (c.toNat + 32) else c

/-- Model of `str::to_lowercase` (ASCII fragment). -/
def lowerString (s : String) : String :=
  ⟨s.data.map lowerChar⟩

/-- Model of `str::trim`: drop whitespace from both ends. -/
def trimChars (l : List Char) : List Char :=
  ((l.dropWhile Char.isWhitespace).reverse.dropWhile Char.isWhitespace).reverse

/-- Model of `str::trim` on `String`. -/
def trimString (s : String) : String :=
  ⟨trimChars s.data⟩

/-- Split a character list at every occurrence of `c` (the separator is
dropped); always returns at least one (possibly empty) group. -/
def splitOnChar (c : Char) : List Char → List (List Char)
  | [] => [[]]
  | x :: xs =>
    if x = c then [] :: splitOnChar c xs
    else
      match splitOnChar c xs with
      | [] => [[x]]
      | g :: gs => (x :: g) :: gs

/-- Model of `Path::extension` for Unix paths: take the final `/`-separated
component, then the part after the last `.`; no dot, or a leading dot with
no other dot (hidden file), gives `none`. -/
def rustExtension (path : String) : Option String :=
  let name := (splitOnChar '/' path.data).getLastD []
  match splitOnChar '.' name with
  | [] => none
  | [_] => none
  | [pre, ext] => if pre = [] then none else some ⟨ext⟩
  | parts => (parts.getLast?).map (fun l => (⟨l⟩ : String))

/-- Extension filter of the directory scan (main.rs lines 214-221):
case-insensitive `png`, `jpg` or `jpeg`. -/
def matchesImageExt (path : String) : Bool :=
  match rustExtension path with
  | some e =>
    let l := lowerString e
    l == "png" || l == "jpg" || l == "jpeg"
  | none => false

/-- Media type derivation of `call_claude_with_image` (main.rs lines
104-113): `png` gives `image/png`, `jpg`/`jpeg` give `image/jpeg`, anything
else — including an absent extension — defaults to `image/jpeg`. -/
def mediaTypeOf (image_path : String) : String :=
  match rustExtension image_path with
  | some ext =>
    let le := lowerString ext
    if le = "png" then "image/png"
    else if le = "jpg" then "image/jpeg"
    else if le = "jpeg" then "image/jpeg"
    else "image/jpeg"
  | none => "image/jpeg"

/-- Error channel of `call_claude_with_image` (the source uses
`Box<dyn Error>`; the constructors record which failure produced it). -/
inductive VisionError where
  | transport : String → VisionError
  | bodyParse : String → VisionError
  | invalidFormat : VisionError
  | apiError : Nat → VisionError
deriving DecidableEq

/-- Message carried by each `VisionError`, as the source formats it. -/
def VisionError.message : VisionError → String
  | .transport m => m
  | .bodyParse m => m
  | .invalidFormat => "Invalid response format"
  | .apiError s => "API request failed with status: " ++ toString s

/-- HTTP exchange outcome: status code and the result of parsing the body
as JSON. -/
structure HttpResp where
  status : Nat
  body : Except String Json

/-- Model of `StatusCode::is_success`: 200..=299. -/
def isSuccessStatus (s : Nat) : Bool :=
  200 ≤ s && s < 300

/-- Model of `call_claude_with_image` (main.rs lines 94-169), with the HTTP
exchange supplied as `resp` (`.error` is a network-level send failure).
The request construction (base64 payload) is not modelled — no observable
result depends on it — but the media type it embeds is `mediaTypeOf
image_path`.  On success the `content` array of the body is scanned and
every element exposing a string `text` field is appended in order. -/
def call_claude_with_image (api_key model : String) (image_data : List Nat)
    (image_path prompt : String) (resp : Except String HttpResp) :
    Except VisionError String :=
  match resp with
  | .error m => .error (.transport m)
  | .ok r =>
    if isSuccessStatus r.status then
      match r.body with
      | .error m => .error (.bodyParse m)
      | .ok response_json =>
        match (response_json.getKey "content").asArray with
        | some content =>
          .ok (content.foldl
            (fun result item =>
              match (item.getKey "text").asStr with
              | some text => result ++ text
              | none => result)
            "")
        | none => .error .invalidFormat
    else .error (.apiError r.status)

/-- Directory entry as the scan sees it: file name and the result of the
metadata/modified query (`none` models a metadata-read failure, which the
source `unwrap`s). -/
structure DirEntry where
  name : String
  meta : Option Nat
deriving DecidableEq

/-- Modification-time key used by `max_by_key`; only evaluated on entries
whose metadata read succeeded (the source panics otherwise). -/
def mtimeKey (e : DirEntry) : Nat :=
  e.meta.getD 0

/-- One step of Rust's `Iterator::max_by_key` fold: keep the new element
when its key is greater or equal (so ties return the last maximum). -/
def maxByKeyStep (key : DirEntry → Nat) (acc : Option DirEntry) (e : DirEntry) :
    Option DirEntry :=
  match acc with
  | none => some e
  | some a => if key a ≤ key e then some e else some a

/-- Model of `Iterator::max_by_key`. -/
def maxByKey (key : DirEntry → Nat) (l : List DirEntry) : Option DirEntry :=
  l.foldl (maxByKeyStep key) none

/-- Image selection (main.rs lines 211-222): filter entries whose full path
has a matching image extension, then take the one with maximal
modification time. -/
def findMostRecent (dir : String) (entries : List DirEntry) : Option DirEntry :=
  maxByKey mtimeKey (entries.filter (fun e => matchesImageExt (dir ++ "/" ++ e.name)))

/-- Model of `shellexpand::tilde`: expand a leading `~` component to the
home directory. -/
def tildeExpand (home : String) (p : String) : String :=
  match p.data with
  | ['~'] => home
  | '~' :: '/' :: rest => home ++ (⟨'/' :: rest⟩ : String)
  | _ => p

/-- Configuration record (main.rs lines 16-22). -/
structure AppConfig where
  api_key : String
  image_directory : String
  model : String
  prompt : String
deriving DecidableEq

/-- In-code `Default` instance of `AppConfig` (main.rs lines 24-33). -/
def AppConfig.defaultConfig : AppConfig where
  api_key := ""
  image_directory := "~/Downloads"
  model := "claude-3-5-haiku-20241022"
  prompt := "Convert the following text to latex, if there is any latex. Only output latex code corresponding to the image, don\x27t put anything else in the response. Don\x27t nest in a code block either or preface with the words latex."

/-- Contents of the default configuration file written by `AppConfig::load`
when none exists (main.rs lines 55-67). -/
def default_config : String :=
  "\n# Anthropic API key (required)\napi_key = \"\"\n\n# Directory to scan for recent images\nimage_directory = \"~/Downloads\"\n\n# Model to use for image processing\nmodel = \"claude-3-5-haiku-20241022\"\n\n# Prompt to send with the image\nprompt = \"Convert the following text to latex, if there is any latex. Only output latex code corresponding to the image, don\x27t put anything else in the response. Don\x27t nest in a code block either or preface with the words latex.\"\n"

/-- Unquote a TOML basic string value (no escapes occur in the default
file). -/
def unquoteChars (l : List Char) : List Char :=
  match l with
  | '"' :: rest => if rest.getLast? = some '"' then rest.dropLast else l
  | _ => l

/-- Join groups back with the separator (inverse of `splitOnChar` on the
tail groups). -/
def joinWithChar (c : Char) : List (List Char) → List Char
  | [] => []
  | [x] => x
  | x :: xs => x ++ c :: joinWithChar c xs

/-- Parse one line of the `key = "value"` TOML fragment used by the default
config file; comments and blank lines give `none`. -/
def parseLine (line : List Char) : Option (String × String) :=
  let t := trimChars line
  if t = [] then none
  else if t.head? = some '#' then none
  else
    match splitOnChar '=' t with
    | [] => none
    | [_] => none
    | k :: rest =>
      some (⟨trimChars k⟩, ⟨unquoteChars (trimChars (joinWithChar '=' rest))⟩)

/-- Parse the line-oriented TOML fragment of the config file into key-value
pairs (models what the `config` crate extracts from the default file). -/
def tomlPairs (s : String) : List (String × String) :=
  (splitOnChar '\n' s.data).filterMap parseLine

/-- Look up a key among parsed pairs. -/
def lookupKey (kvs : List (String × String)) (k : String) : Option String :=
  (kvs.find? (fun p => p.1 == k)).map (fun p => p.2)

/-- Model of `settings.try_deserialize::<AppConfig>()`: all four fields are
required. -/
def tryDeserialize (kvs : List (String × String)) : Option AppConfig :=
  match lookupKey kvs "api_key", lookupKey kvs "image_directory",
      lookupKey kvs "model", lookupKey kvs "prompt" with
  | some a, some d, some m, some p => some ⟨a, d, m, p⟩
  | _, _, _, _ => none

/-- Model of `AppConfig::load` on the missing-file path: the default file
is written and then parsed and deserialized. -/
def loadAfterWritingDefault : Option AppConfig :=
  tryDeserialize (tomlPairs default_config)

deriving instance DecidableEq for Except

/-- Observable events of a run, in program order. -/
inductive Event where
  | notify : String → String → String → Event
  | dialog : String → String → Event
  | fileRead : String → Event
  | apiCall : String → String → String → List Nat → String → Event
  | clipboardWrite : String → Event
deriving DecidableEq

/-- Process outcome: normal return of `main`, or a panic (from `expect` /
`unwrap`). -/
inductive Outcome where
  | returned : Outcome
  | panicked : String → Outcome
deriving DecidableEq

/-- External behaviour supplied to one run of `main`. -/
structure World where
  configLoad : Except String AppConfig
  homeDir : String
  dirListing : Option (List (Option DirEntry))
  fileRead : Except String (List Nat)
  userChoice : Bool
  apiResponse : Except String HttpResp
  clipboard : Except String Unit

/-- Model of `main` (main.rs lines 179-306): replay the run over a `World`
and return the outcome with the ordered event trace.  Notifications are
modelled as always delivered (the source `unwrap`s the notifier result).
`fs::read_dir(..).expect(..)` and `entry.metadata().unwrap()` panic, so
those paths produce `Outcome.panicked` with an empty trace. -/
def runMain (w : World) : Outcome × List Event :=
  match w.configLoad with
  | .error e =>
    (.returned,
      [.notify "Configuration Error" ("Error loading configuration: " ++ e) "Blow"])
  | .ok config =>
    if trimString config.api_key = "" then
      (.returned,
        [.notify "Configuration Error"
          "API key is not set. Please add it to the configuration file." "Blow"])
    else
      let expanded_path := tildeExpand w.homeDir config.image_directory
      match w.dirListing with
      | none => (.panicked "Failed to read directory", [])
      | some listing =>
        let entries := listing.filterMap id
        let filtered := entries.filter (fun e => matchesImageExt (expanded_path ++ "/" ++ e.name))
        if filtered.all (fun e => e.meta.isSome) then
          match findMostRecent expanded_path entries with
          | none =>
            (.returned,
              [.notify "No images found"
                ("No images found in directory: " ++ expanded_path) "Blow"])
          | some image_entry =>
            let image_path := expanded_path ++ "/" ++ image_entry.name
            match w.fileRead with
            | .error e =>
              (.returned,
                [.fileRead image_path, .notify "Failed to read image" e "Blow"])
            | .ok image_data =>
              if w.userChoice then
                match call_claude_with_image config.api_key config.model image_data
                    image_path config.prompt w.apiResponse with
                | .ok latex_result =>
                  match w.clipboard with
                  | .error e =>
                    (.returned,
                      [.fileRead image_path,
                        .dialog "Confirm Image Processing" image_path,
                        .apiCall config.api_key config.model config.prompt image_data
                          (mediaTypeOf image_path),
                        .clipboardWrite latex_result,
                        .notify "Error" ("Failed to copy to clipboard: " ++ e) "Blow"])
                  | .ok _ =>
                    (.returned,
                      [.fileRead image_path,
                        .dialog "Confirm Image Processing" image_path,
                        .apiCall config.api_key config.model config.prompt image_data
                          (mediaTypeOf image_path),
                        .clipboardWrite latex_result,
                        .notify "LaTeX Conversion Complete"
                          "LaTeX has been copied to clipboard" "Glass"])
                | .error e =>
                  (.returned,
                    [.fileRead image_path,
                      .dialog "Confirm Image Processing" image_path,
                      .apiCall config.api_key config.model config.prompt image_data
                        (mediaTypeOf image_path),
                      .notify "API Call Failed"
                        ("Error calling Claude API: " ++ e.message) "Blow"])
              else
                (.returned,
                  [.fileRead image_path,
                    .dialog "Confirm Image Processing" image_path,
                    .notify "Cancelled request" "Images untouched" "Blow"])
        else (.panicked "called unwrap on an Err value", [])

/-- Recognize notification events. -/
def isNotify : Event → Bool
  | .notify _ _ _ => true
  | _ => false

/-- Recognize dialog events. -/
def isDialog : Event → Bool
  | .dialog _ _ => true
  | _ => false

/-- Recognize API-call events. -/
def isApiCall : Event → Bool
  | .apiCall _ _ _ _ _ => true
  | _ => false

/-- Recognize clipboard-write events. -/
def isClipboardWrite : Event → Bool
  | .clipboardWrite _ => true
  | _ => false

/-- Number of notifications in a trace. -/
def notifyCount (l : List Event) : Nat :=
  l.countP isNotify

/-- True when no dialog event occurs before the first file-read event of
the trace. -/
def noDialogBeforeRead : List Event → Bool
  | [] => true
  | .fileRead _ :: _ => true
  | .dialog _ _ :: _ => false
  | _ :: rest => noDialogBeforeRead rest

/-! ## Helper lemmas -/

/-- Folding string append over a list equals prepending the accumulator to
the join. -/
theorem foldl_append_eq_join (l : List String) :
    ∀ acc : String, l.foldl (fun r s => r ++ s) acc = acc ++ String.join l := by
  induction l with
  | nil => intro acc; simp [String.join, String.append_empty]
  | cons x xs ih =>
    intro acc
    have hx : String.join (x :: xs) = x ++ String.join xs := by
      show xs.foldl (fun r s => r ++ s) ("" ++ x) = x ++ String.join xs
      rw [ih ("" ++ x), String.empty_append]
    rw [hx]
    show xs.foldl (fun r s => r ++ s) (acc ++ x) = acc ++ (x ++ String.join xs)
    rw [ih (acc ++ x), String.append_assoc]

/-- The text-collecting fold of `call_claude_with_image` concatenates, in
order, exactly the string `text` fields the elements expose. -/
theorem foldl_text_eq_join (f : Json → Option String) (l : List Json) :
    ∀ acc : String,
      l.foldl (fun result item =>
        match f item with
        | some text => result ++ text
        | none => result) acc
      = acc ++ String.join (l.filterMap f) := by
  induction l with
  | nil => intro acc; simp [String.join, String.append_empty]
  | cons x xs ih =>
    intro acc
    rw [List.foldl_cons]
    cases h : f x with
    | none =>
      simp only [List.filterMap_cons, h]
      exact ih acc
    | some t =>
      simp only [List.filterMap_cons, h]
      rw [ih (acc ++ t)]
      have hj : String.join (t :: xs.filterMap f) = t ++ String.join (xs.filterMap f) := by
        show (xs.filterMap f).foldl (fun r s => r ++ s) ("" ++ t) = _
        rw [foldl_append_eq_join, String.empty_append]
      rw [hj, String.append_assoc]

/-! ## Claims -/

/-- C1: for every successful HTTP response whose JSON body has a `content`
array, `call_claude_with_image` returns the concatenation, in array order,
of the `text` field of every element exposing a string `text` field, and it
fails with the response-format error whenever the body has no `content`
array. -/
theorem c1_analyze_concatenates_text (api_key model image_path prompt : String)
    (image_data : List Nat) (status : Nat) (body : Json)
    (hs : isSuccessStatus status = true) :
    (∀ content, (body.getKey "content").asArray = some content →
      call_claude_with_image api_key model image_data image_path prompt
          (.ok ⟨status, .ok body⟩)
        = .ok (String.join (content.filterMap (fun item => (item.getKey "text").asStr)))) ∧
    ((body.getKey "content").asArray = none →
      call_claude_with_image api_key model image_data image_path prompt
          (.ok ⟨status, .ok body⟩)
        = .error .invalidFormat) := by
  constructor
  · intro content hc
    simp only [call_claude_with_image, hs, if_true, hc]
    rw [foldl_text_eq_join, String.empty_append]
  · intro hc
    simp only [call_claude_with_image, hs, if_true, hc]

/-- Response body of the spec's mocked-API example:
`content: [{type:"text", text:"A"}, {type:"text", text:"B"}]`. -/
def exampleContent : List Json :=
  [Json.obj [("type", Json.str "text"), ("text", Json.str "A")],
   Json.obj [("type", Json.str "text"), ("text", Json.str "B")]]

/-- Wrapper object holding the example content array. -/
def exampleBody : Json := Json.obj [("content", Json.arr exampleContent)]

/-- Witness for C1: the mocked 200 response with texts "A" and "B" yields
"AB". -/
theorem c1_witness :
    call_claude_with_image "k" "claude" [7] "a.png" "p" (.ok ⟨200, .ok exampleBody⟩)
      = .ok "AB" :=
  ((c1_analyze_concatenates_text "k" "claude" "a.png" "p" [7] 200 exampleBody
    rfl).1 exampleContent rfl).trans rfl

/-- C7: the media type sent with the vision request is a pure function of
the file extension: a case-insensitive `png` extension yields `image/png`,
`jpg`/`jpeg` yield `image/jpeg`, and any other or absent extension defaults
to `image/jpeg`. -/
theorem c7_media_type_from_extension (path : String) :
    (∀ e, rustExtension path = some e → lowerString e = "png" →
      mediaTypeOf path = "image/png") ∧
    (∀ e, rustExtension path = some e →
      (lowerString e = "jpg" ∨ lowerString e = "jpeg") →
      mediaTypeOf path = "image/jpeg") ∧
    (∀ e, rustExtension path = some e → lowerString e ≠ "png" →
      lowerString e ≠ "jpg" → lowerString e ≠ "jpeg" →
      mediaTypeOf path = "image/jpeg") ∧
    (rustExtension path = none → mediaTypeOf path = "image/jpeg") ∧
    (∀ q, rustExtension path = rustExtension q → mediaTypeOf path = mediaTypeOf q) := by
  refine ⟨?_, ?_, ?_, ?_, ?_⟩
  · intro e he h
    simp [mediaTypeOf, he, h]
  · intro e he h
    rcases h with h | h <;> simp [mediaTypeOf, he, h]
  · intro e he h1 h2 h3
    simp [mediaTypeOf, he, h1, h2, h3]
  · intro h
    simp [mediaTypeOf, h]
  · intro q hq
    unfold mediaTypeOf
    rw [hq]

/-- Witness for C7: a `.PNG` file maps to `image/png`, a `.JPeG` file to
`image/jpeg`, and a path without extension to `image/jpeg`. -/
theorem c7_witness :
    mediaTypeOf "shot.PNG" = "image/png" ∧
    mediaTypeOf "b.JPeG" = "image/jpeg" ∧
    mediaTypeOf "noext" = "image/jpeg" :=
  ⟨(c7_media_type_from_extension "shot.PNG").1 "PNG" rfl rfl,
   (c7_media_type_from_extension "b.JPeG").2.1 "JPeG" rfl (Or.inr rfl),
   (c7_media_type_from_extension "noext").2.2.2.1 rfl⟩

/-- C8: every HTTP response with a non-success status makes
`call_claude_with_image` fail with an error carrying the status code, whose
message contains that status. -/
theorem c8_api_error_carries_status (api_key model image_path prompt : String)
    (image_data : List Nat) (status : Nat) (body : Except String Json)
    (hs : isSuccessStatus status = false) :
    call_claude_with_image api_key model image_data image_path prompt
        (.ok ⟨status, body⟩)
      = .error (.apiError status) ∧
    ∃ pre post,
      (VisionError.apiError status).message = pre ++ toString status ++ post := by
  constructor
  · simp only [call_claude_with_image, hs, Bool.false_eq_true, if_false]
  · exact ⟨"API request failed with status: ", "", by
      simp [VisionError.message, String.append_empty]⟩

/-- Witness for C8: a 429 response fails with an error whose message
contains "429". -/
theorem c8_witness :
    call_claude_with_image "k" "m" [] "a.png" "p" (.ok ⟨429, .ok Json.null⟩)
      = .error (.apiError 429) ∧
    ∃ pre post,
      (VisionError.apiError 429).message = pre ++ toString 429 ++ post :=
  c8_api_error_carries_status "k" "m" "a.png" "p" [] 429 (.ok Json.null) rfl

set_option maxRecDepth 100000 in
/-- C9: when the configuration file is absent, writing the default file and
loading it yields a configuration equal to the in-code `Default` instance,
with empty `api_key`, `~/Downloads` directory, and the documented default
model and prompt strings. -/
theorem c9_default_roundtrip :
    loadAfterWritingDefault = some AppConfig.defaultConfig ∧
    AppConfig.defaultConfig.api_key = "" ∧
    AppConfig.defaultConfig.image_directory = "~/Downloads" ∧
    AppConfig.defaultConfig.model = "claude-3-5-haiku-20241022" ∧
    AppConfig.defaultConfig.prompt
      = "Convert the following text to latex, if there is any latex. Only output latex code corresponding to the image, don\x27t put anything else in the response. Don\x27t nest in a code block either or preface with the words latex." := by
  exact ⟨by decide, rfl, rfl, rfl, rfl⟩

/-- Characterization of the `max_by_key` fold with a non-empty accumulator:
the result is the accumulator or a list element, is at least the
accumulator's key, and dominates every list element's key. -/
theorem foldl_maxByKeyStep (key : DirEntry → Nat) :
    ∀ (l : List DirEntry) (a : DirEntry),
      ∃ b, l.foldl (maxByKeyStep key) (some a) = some b ∧
        (b = a ∨ b ∈ l) ∧ key a ≤ key b ∧ ∀ x ∈ l, key x ≤ key b := by
  intro l
  induction l with
  | nil =>
    intro a
    exact ⟨a, rfl, Or.inl rfl, le_refl _, by simp⟩
  | cons e t ih =>
    intro a
    by_cases h : key a ≤ key e
    · obtain ⟨b, hb, hmem, hle, hall⟩ := ih e
      refine ⟨b, ?_, ?_, le_trans h hle, ?_⟩
      · simpa [List.foldl_cons, maxByKeyStep, h] using hb
      · rcases hmem with h1 | h1
        · exact Or.inr (h1 ▸ List.mem_cons_self e t)
        · exact Or.inr (List.mem_cons_of_mem _ h1)
      · intro x hx
        rcases List.mem_cons.mp hx with h1 | h1
        · exact h1 ▸ hle
        · exact hall x h1
    · obtain ⟨b, hb, hmem, hle, hall⟩ := ih a
      refine ⟨b, ?_, ?_, hle, ?_⟩
      · simpa [List.foldl_cons, maxByKeyStep, h] using hb
      · rcases hmem with h1 | h1
        · exact Or.inl h1
        · exact Or.inr (List.mem_cons_of_mem _ h1)
      · intro x hx
        rcases List.mem_cons.mp hx with h1 | h1
        · exact h1 ▸ le_trans (le_of_lt (lt_of_not_le h)) hle
        · exact hall x h1

/-- When one element strictly dominates the keys of all others,
`maxByKey` returns it. -/
theorem maxByKey_strict (key : DirEntry → Nat) (l : List DirEntry) (e : DirEntry)
    (he : e ∈ l) (hmax : ∀ x ∈ l, x ≠ e → key x < key e) :
    maxByKey key l = some e := by
  cases l with
  | nil => cases he
  | cons f t =>
    obtain ⟨b, hb, hmem, hle, hall⟩ := foldl_maxByKeyStep key t f
    have hfold : maxByKey key (f :: t) = some b := by
      simpa [maxByKey, List.foldl_cons, maxByKeyStep] using hb
    have hbmem : b ∈ f :: t := by
      rcases hmem with h | h
      · exact h ▸ List.mem_cons_self f t
      · exact List.mem_cons_of_mem _ h
    have hkey : key e ≤ key b := by
      rcases List.mem_cons.mp he with h | h
      · exact h ▸ hle
      · exact hall e h
    have hbe : b = e := by
      by_contra hne
      exact absurd hkey (not_le.mpr (hmax b hbmem hne))
    rw [hfold, hbe]

/-- C2: the image selection depends only on the entries whose extension is
case-insensitively `png`, `jpg` or `jpeg`; it is `none` when no entry
matches, and returns the matching entry with strictly maximal modification
time when one exists. -/
theorem c2_find_most_recent (dir : String) (entries : List DirEntry) :
    (findMostRecent dir entries
      = findMostRecent dir
          (entries.filter (fun e => matchesImageExt (dir ++ "/" ++ e.name)))) ∧
    (entries.filter (fun e => matchesImageExt (dir ++ "/" ++ e.name)) = [] →
      findMostRecent dir entries = none) ∧
    (∀ e, e ∈ entries.filter (fun e => matchesImageExt (dir ++ "/" ++ e.name)) →
      (∀ x ∈ entries.filter (fun e => matchesImageExt (dir ++ "/" ++ e.name)),
        x ≠ e → mtimeKey x < mtimeKey e) →
      findMostRecent dir entries = some e) := by
  refine ⟨?_, ?_, ?_⟩
  · unfold findMostRecent
    rw [List.filter_filter]
    simp only [Bool.and_self]
  · intro h
    unfold findMostRecent
    rw [h]
    rfl
  · intro e he hmax
    unfold findMostRecent
    exact maxByKey_strict mtimeKey _ e he hmax

/-- Witness for C2: among `a.png` (mtime 5), `b.txt` (mtime 9, not an
image) and `c.JPG` (mtime 3), the selection is `a.png` — the non-image file
with the globally largest mtime does not influence the result. -/
theorem c2_witness :
    findMostRecent "/d"
        [⟨"a.png", some 5⟩, ⟨"b.txt", some 9⟩, ⟨"c.JPG", some 3⟩]
      = some ⟨"a.png", some 5⟩ :=
  (c2_find_most_recent "/d"
    [⟨"a.png", some 5⟩, ⟨"b.txt", some 9⟩, ⟨"c.JPG", some 3⟩]).2.2
    ⟨"a.png", some 5⟩ (by decide) (by decide)

/-- True when the last element of the trace is a notification. -/
def lastIsNotify : List Event → Bool
  | [] => false
  | [e] => isNotify e
  | _ :: rest => lastIsNotify rest

/-- C3 (amended): every run that terminates normally emits exactly one
notification, as its final event; on the panicking paths (directory
unlistable, per-entry metadata failure) zero notifications are emitted. -/
theorem c3_notification_discipline (w : World) :
    ((runMain w).1 = .returned →
      notifyCount (runMain w).2 = 1 ∧ lastIsNotify (runMain w).2 = true) ∧
    (∀ m, (runMain w).1 = .panicked m → notifyCount (runMain w).2 = 0) := by
  simp only [runMain]
  repeat' split <;> try simp_all [notifyCount, isNotify, lastIsNotify]

/-- Run on which C3 as stated fails: valid configuration, a listable
directory whose matching entry has a failing metadata read. -/
def metaFailWorld : World where
  configLoad := .ok ⟨"sk-key", "pics", "model-x", "prompt-x"⟩
  homeDir := "/Users/u"
  dirListing := some [some ⟨"a.png", none⟩]
  fileRead := .ok [1]
  userChoice := true
  apiResponse := .error "net"
  clipboard := .ok ()

/-- Counterexample to C3 as stated: on the per-entry metadata-read failure
path the program terminates (by panic) with zero notifications, not one. -/
theorem c3_counterexample :
    (runMain metaFailWorld).1 = .panicked "called unwrap on an Err value" ∧
    notifyCount (runMain metaFailWorld).2 = 0 := by
  decide

/-- Run that terminates normally after a config-load failure. -/
def configErrWorld : World where
  configLoad := .error "bad toml"
  homeDir := "/Users/u"
  dirListing := none
  fileRead := .error "no file"
  userChoice := false
  apiResponse := .error "net"
  clipboard := .ok ()

/-- Witness for C3 (amended): a normally-terminating run has exactly one
notification and a panicking run has zero. -/
theorem c3_witness :
    (notifyCount (runMain configErrWorld).2 = 1 ∧
      lastIsNotify (runMain configErrWorld).2 = true) ∧
    notifyCount (runMain metaFailWorld).2 = 0 :=
  ⟨(c3_notification_discipline configErrWorld).1 rfl,
   (c3_notification_discipline metaFailWorld).2 "called unwrap on an Err value" rfl⟩

/-- C4 (amended): if the configured image directory cannot be listed (after
the configuration loads with a non-empty key), the run aborts by panicking
with message "Failed to read directory" and no notification is delivered. -/
theorem c4_dir_unlistable_panics (w : World) (cfg : AppConfig)
    (h1 : w.configLoad = .ok cfg) (h2 : ¬ trimString cfg.api_key = "")
    (h3 : w.dirListing = none) :
    runMain w = (.panicked "Failed to read directory", []) := by
  unfold runMain
  rw [h1, h3]
  simp [h2]

/-- Run with a valid configuration whose directory listing fails. -/
def dirFailWorld : World where
  configLoad := .ok ⟨"sk-key2", "~/Downloads", "model-y", "prompt-y"⟩
  homeDir := "/Users/v"
  dirListing := none
  fileRead := .ok [2]
  userChoice := true
  apiResponse := .error "net"
  clipboard := .ok ()

/-- Counterexample to C4 as stated: on the unlistable-directory run the
program panics and delivers zero notifications, so no notification reaches
the user for that failure. -/
theorem c4_counterexample :
    (runMain dirFailWorld).1 = .panicked "Failed to read directory" ∧
    notifyCount (runMain dirFailWorld).2 = 0 := by
  decide

/-- Witness for C4 (amended) at a concrete world. -/
theorem c4_witness :
    runMain dirFailWorld = (.panicked "Failed to read directory", []) :=
  c4_dir_unlistable_panics dirFailWorld ⟨"sk-key2", "~/Downloads", "model-y", "prompt-y"⟩
    rfl (by decide) rfl

/-- C5: with an empty or whitespace-only API key the run emits exactly the
configuration-error notification and terminates with no API call; moreover
every API call in any run carries a key that is non-empty after trimming. -/
theorem c5_empty_key_no_call (w : World) :
    (∀ cfg, w.configLoad = .ok cfg → trimString cfg.api_key = "" →
      runMain w = (.returned,
        [.notify "Configuration Error"
          "API key is not set. Please add it to the configuration file." "Blow"])) ∧
    (∀ k m p d mt, Event.apiCall k m p d mt ∈ (runMain w).2 →
      ¬ trimString k = "") := by
  constructor
  · intro cfg h1 h2
    unfold runMain
    rw [h1]
    simp [h2]
  · intro k m p d mt hmem
    simp only [runMain] at hmem
    repeat' split at hmem <;> try simp_all

/-- Run whose configuration has a whitespace-only API key. -/
def emptyKeyWorld : World where
  configLoad := .ok ⟨"   ", "pics", "model-z", "prompt-z"⟩
  homeDir := "/Users/w"
  dirListing := some []
  fileRead := .ok []
  userChoice := true
  apiResponse := .error "net"
  clipboard := .ok ()

/-- Run with a valid key that reaches the API call. -/
def successWorld : World where
  configLoad := .ok ⟨"sk-key", "~/Downloads", "model-s", "prompt-s"⟩
  homeDir := "/h"
  dirListing := some [some ⟨"a.png", some 5⟩]
  fileRead := .ok [9, 8]
  userChoice := true
  apiResponse := .ok ⟨200, .ok exampleBody⟩
  clipboard := .ok ()

/-- Witness for C5: the whitespace-only key run stops at the
configuration-error notification, and a run that does call the API does so
with a key that is non-empty after trimming. -/
theorem c5_witness :
    runMain emptyKeyWorld = (.returned,
      [.notify "Configuration Error"
        "API key is not set. Please add it to the configuration file." "Blow"]) ∧
    ¬ trimString "sk-key" = "" :=
  ⟨(c5_empty_key_no_call emptyKeyWorld).1 ⟨"   ", "pics", "model-z", "prompt-z"⟩
      rfl (by decide),
   (c5_empty_key_no_call successWorld).2 "sk-key" "model-s" "prompt-s" [9, 8]
      "image/png" (by decide)⟩

/-- C6: when the user answers "No" to the confirmation dialog, the run
terminates normally with the "Cancelled request" notification, the vision
API is never called, and the clipboard is never written. -/
theorem c6_cancelled_run (w : World) (hNo : w.userChoice = false)
    (hDialog : ∃ e ∈ (runMain w).2, isDialog e = true) :
    (runMain w).1 = .returned ∧
    Event.notify "Cancelled request" "Images untouched" "Blow" ∈ (runMain w).2 ∧
    (runMain w).2.countP isApiCall = 0 ∧
    (runMain w).2.countP isClipboardWrite = 0 := by
  simp only [runMain] at hDialog ⊢
  repeat' split at hDialog <;>
    try simp_all [isDialog, isApiCall, isClipboardWrite, isNotify]

/-- Run in which the user answers "No" at the dialog. -/
def cancelWorld : World where
  configLoad := .ok ⟨"sk-key4", "~/Downloads", "model-c", "prompt-c"⟩
  homeDir := "/h"
  dirListing := some [some ⟨"b.jpg", some 3⟩]
  fileRead := .ok [1, 2]
  userChoice := false
  apiResponse := .error "net"
  clipboard := .ok ()

/-- Witness for C6 at a concrete cancelled run. -/
theorem c6_witness :
    (runMain cancelWorld).1 = .returned ∧
    Event.notify "Cancelled request" "Images untouched" "Blow" ∈ (runMain cancelWorld).2 ∧
    (runMain cancelWorld).2.countP isApiCall = 0 ∧
    (runMain cancelWorld).2.countP isClipboardWrite = 0 :=
  c6_cancelled_run cancelWorld rfl (by decide)

/-- C10: in every run the image bytes are read before any confirmation
dialog appears, and when the file read fails the run terminates normally
with the "Failed to read image" notification and no dialog is ever
shown. -/
theorem c10_read_before_dialog (w : World) :
    noDialogBeforeRead (runMain w).2 = true ∧
    (∀ p msg, Event.fileRead p ∈ (runMain w).2 → w.fileRead = .error msg →
      (runMain w).2.countP isDialog = 0 ∧
      Event.notify "Failed to read image" msg "Blow" ∈ (runMain w).2 ∧
      (runMain w).1 = .returned) := by
  constructor
  · simp only [runMain]
    repeat' split <;> try simp [noDialogBeforeRead]
  · intro p msg hmem hfr
    simp only [runMain] at hmem ⊢
    repeat' split at hmem <;> try simp_all [isDialog, noDialogBeforeRead]

/-- Run whose selected image file cannot be read. -/
def readFailWorld : World where
  configLoad := .ok ⟨"sk-key3", "~/Downloads", "model-r", "prompt-r"⟩
  homeDir := "/h"
  dirListing := some [some ⟨"a.png", some 5⟩]
  fileRead := .error "permission denied"
  userChoice := true
  apiResponse := .error "net"
  clipboard := .ok ()

/-- Witness for C10: the failing read produces the "Failed to read image"
notification and no dialog. -/
theorem c10_witness :
    (runMain readFailWorld).2.countP isDialog = 0 ∧
    Event.notify "Failed to read image" "permission denied" "Blow"
      ∈ (runMain readFailWorld).2 ∧
    (runMain readFailWorld).1 = .returned :=
  (c10_read_before_dialog readFailWorld).2 "/h/Downloads/a.png" "permission denied"
    (by decide) rfl
